import Mathlib

/-!
Verification of the birthday-tracker integration's core logic.

The Python source is shallowly embedded: Python strings are `List Char`,
`datetime.date` values are `PyDate` triples validated like the CPython
constructor (years 1..9999, month lengths with leap rule), date comparison
and subtraction go through the proleptic-Gregorian ordinal, and functions
that can raise return `Option`.  Python `int()` is modelled on plain
digit strings (optionally `-`-signed where the code can receive signs),
which covers all canonical data the store produces.
-/

namespace BirthdayTracker

/-- Whitespace test used by the model of Python `str.strip`. -/
def is_space_ch (c : Char) : Bool :=
  c == ' ' || c == '\t' || c == '\n' || c == '\r'

/-- Decimal digit character for a digit value 0..9. -/
def digit_ch (k : Nat) : Char :=
  match k with
  | 0 => '0' | 1 => '1' | 2 => '2' | 3 => '3' | 4 => '4'
  | 5 => '5' | 6 => '6' | 7 => '7' | 8 => '8' | 9 => '9'
  | _ => '0'

/-- Is `c` an ASCII decimal digit. -/
def is_digit_ch (c : Char) : Bool :=
  decide ('0' ≤ c ∧ c ≤ '9')

/-- Numeric value of a digit character. -/
def digit_val (c : Char) : Nat := c.toNat - 48

/-- Model of Python `str.split(sep)` for a one-character separator. -/
def split_on_char (sep : Char) : List Char → List (List Char)
  | [] => [[]]
  | c :: rest =>
    match split_on_char sep rest with
    | [] => if c == sep then [[], []] else [[c]]
    | h :: t => if c == sep then [] :: h :: t else (c :: h) :: t

/-- Model of Python `str.strip()`. -/
def py_strip (l : List Char) : List Char :=
  ((l.dropWhile is_space_ch).reverse.dropWhile is_space_ch).reverse

/-- Fuel-driven decimal rendering; the fuel argument only bounds recursion. -/
def nat_digits_aux : Nat → Nat → List Char
  | 0, _ => []
  | fuel + 1, n =>
    if n < 10 then [digit_ch n]
    else nat_digits_aux fuel (n / 10) ++ [digit_ch (n % 10)]

/-- Decimal rendering of a natural number (no sign, no padding). -/
def nat_digits (n : Nat) : List Char := nat_digits_aux (n + 1) n

/-- Zero-pad on the left to width `k`: model of Python `%0kd` for `n ≥ 0`. -/
def pad_left (k : Nat) (l : List Char) : List Char :=
  List.replicate (k - l.length) '0' ++ l

/-- Model of Python `f"{n:02d}"` for nonnegative `n`. -/
def pad2 (n : Nat) : List Char := pad_left 2 (nat_digits n)

/-- Model of Python `f"{n:04d}"` for nonnegative `n`. -/
def pad4 (n : Nat) : List Char := pad_left 4 (nat_digits n)

/-- Value of a digit string. -/
def parse_val (l : List Char) : Nat :=
  l.foldl (fun a c => a * 10 + digit_val c) 0

/-- Model of Python `int()` on nonnegative decimal strings. -/
def parse_py_nat (l : List Char) : Option Nat :=
  if l.isEmpty then none
  else if l.all is_digit_ch then some (parse_val l) else none

/-- Model of Python `int()` on possibly negative decimal strings. -/
def parse_py_int (l : List Char) : Option Int :=
  match l with
  | '-' :: rest => (parse_py_nat rest).map (fun n => -(n : Int))
  | _ => (parse_py_nat l).map (fun n => (n : Int))

/-- Gregorian leap-year rule, as used by `datetime.date`. -/
def is_leap (y : Nat) : Bool :=
  (y % 4 == 0 && y % 100 != 0) || (y % 400 == 0)

/-- Days in month `m` (1..12) of a (non-)leap year. -/
def month_length (leap : Bool) (m : Nat) : Nat :=
  if m = 1 then 31
  else if m = 2 then (if leap then 29 else 28)
  else if m = 3 then 31
  else if m = 4 then 30
  else if m = 5 then 31
  else if m = 6 then 30
  else if m = 7 then 31
  else if m = 8 then 31
  else if m = 9 then 30
  else if m = 10 then 31
  else if m = 11 then 30
  else if m = 12 then 31
  else 0

/-- Days in a year strictly before month `m`. -/
def cum_days (leap : Bool) (m : Nat) : Nat :=
  (if m = 1 then 0
   else if m = 2 then 31
   else if m = 3 then 59
   else if m = 4 then 90
   else if m = 5 then 120
   else if m = 6 then 151
   else if m = 7 then 181
   else if m = 8 then 212
   else if m = 9 then 243
   else if m = 10 then 273
   else if m = 11 then 304
   else if m = 12 then 334
   else 0) +
  (if leap = true ∧ 3 ≤ m then 1 else 0)

/-- Days strictly before January 1 of year `y` (proleptic Gregorian). -/
def days_before_year (y : Nat) : Nat :=
  365 * (y - 1) + ((y - 1) / 4 + (y - 1) / 400 - (y - 1) / 100)

/-- 1 for `true`, 0 for `false`; used to state leap-day corrections. -/
def bool_bit (b : Bool) : Nat := if b then 1 else 0

/-- A `datetime.date` value as a year/month/day triple. -/
structure PyDate where
  y : Nat
  m : Nat
  d : Nat
deriving DecidableEq

/-- The `datetime.date` constructor's validity check (years 1..9999). -/
def is_valid_date (dt : PyDate) : Bool :=
  decide (1 ≤ dt.y ∧ dt.y ≤ 9999 ∧ 1 ≤ dt.m ∧ dt.m ≤ 12 ∧
    1 ≤ dt.d ∧ dt.d ≤ month_length (is_leap dt.y) dt.m)

/-- Rata-die style ordinal; `datetime.date` ordering and subtraction agree
with the ordinal on valid dates. -/
def to_ordinal (dt : PyDate) : Nat :=
  days_before_year dt.y + cum_days (is_leap dt.y) dt.m + dt.d

/-- Model of `date(y, m, d)`: `none` models a raised `ValueError`. -/
def mk_date (y m d : Nat) : Option PyDate :=
  if is_valid_date ⟨y, m, d⟩ then some ⟨y, m, d⟩ else none

/-- Model of `try: date(y, m, d) except ValueError: date(y, m, 28)`,
where the second constructor call may itself raise (`none`). -/
def mk_date_fallback (y m d : Nat) : Option PyDate :=
  match mk_date y m d with
  | some dt => some dt
  | none => mk_date y m 28

/-- A month/day pair that some year accepts: what `_normalize_date`
guarantees for every stored date (it validates against the stored year,
or against the leap reference year 2000 when the year is unknown). -/
def valid_md (m d : Nat) : Prop :=
  1 ≤ m ∧ m ≤ 12 ∧ 1 ≤ d ∧ d ≤ month_length true m

instance (m d : Nat) : Decidable (valid_md m d) :=
  inferInstanceAs
    (Decidable (1 ≤ m ∧ m ≤ 12 ∧ 1 ≤ d ∧ d ≤ month_length true m))

/-- The day actually used by the `except ValueError: ... 28` fallback. -/
def fb_day (leap : Bool) (m d : Nat) : Nat :=
  if d ≤ month_length leap m then d else 28

/-- Model of `date` comparison `a < b`. -/
def date_lt (a b : PyDate) : Bool :=
  decide (to_ordinal a < to_ordinal b)

/-- Model of `(a - b).days`. -/
def date_sub_days (a b : PyDate) : Int :=
  (to_ordinal a : Int) - (to_ordinal b : Int)

/-- Canonical stored form `f"{y:04d}-{m:02d}-{d:02d}"`. -/
def render_date (y m d : Nat) : List Char :=
  pad4 y ++ '-' :: (pad2 m ++ '-' :: pad2 d)

/-- Decimal rendering of an integer: model of Python `f"{n}"`. -/
def render_int (n : Int) : List Char :=
  if n < 0 then '-' :: nat_digits n.natAbs else nat_digits n.toNat

/-- `_ordinal` from `__init__.py` (identical copies live in `calendar.py`
and `sensor.py`); Python `%` on a positive modulus is `Int.emod`. -/
def ordinal (n : Int) : List Char :=
  render_int n ++
    (if 11 ≤ n % 100 ∧ n % 100 ≤ 13 then ['t', 'h']
     else if n % 10 = 1 then ['s', 't']
     else if n % 10 = 2 then ['n', 'd']
     else if n % 10 = 3 then ['r', 'd']
     else ['t', 'h'])

/-- Descending stable sort, the meaning of `sorted(l, reverse=True)`. -/
def sort_desc (l : List Int) : List Int :=
  List.insertionSort (fun a b => b ≤ a) l

/-- The list comprehension `[int(x.strip()) for x in value.split(",") if
x.strip()]`; `none` models a raised `ValueError`. -/
def parse_csv_ints (value : List Char) : Option (List Int) :=
  (((split_on_char ',' value).map py_strip).filter
    (fun t => !t.isEmpty)).mapM parse_py_int

/-- `_parse_reminder_days` from `__init__.py` (same code in
`config_flow.py`): split on commas, drop blank entries, `int()` each,
sort descending; `none` models a raised `ValueError`. -/
def parse_reminder_days (value : List Char) : Option (List Int) :=
  match parse_csv_ints value with
  | some l => some (sort_desc l)
  | none => none

/-- `_normalize_date` from `__init__.py`: accepts `DD-MM` and
`DD-MM-YYYY`, validates against year 2000 when the year is absent or 0,
and stores `YYYY-MM-DD`.  `none` models `vol.Invalid`/`ValueError`. -/
def normalize_date (date_str : List Char) : Option (List Char) :=
  match split_on_char '-' (py_strip date_str) with
  | [p1, p2] =>
    match parse_py_nat p1, parse_py_nat p2 with
    | some day, some month =>
      match mk_date 2000 month day with
      | some _ => some (render_date 0 month day)
      | none => none
    | _, _ => none
  | [p1, p2, p3] =>
    match parse_py_nat p1, parse_py_nat p2, parse_py_nat p3 with
    | some day, some month, some year =>
      if year ≠ 0 then
        match mk_date year month day with
        | some _ => some (render_date year month day)
        | none => none
      else
        match mk_date 2000 month day with
        | some _ => some (render_date year month day)
        | none => none
    | _, _, _ => none
  | _ => none

/-- `_normalize_date` from `config_flow.py`: same shape but the segments
are read as `MM-DD` resp. `YYYY-MM-DD`. -/
def cfg_normalize_date (date_str : List Char) : Option (List Char) :=
  match split_on_char '-' (py_strip date_str) with
  | [p1, p2] =>
    match parse_py_nat p1, parse_py_nat p2 with
    | some month, some day =>
      match mk_date 2000 month day with
      | some _ => some (render_date 0 month day)
      | none => none
    | _, _ => none
  | [p1, p2, p3] =>
    match parse_py_nat p1, parse_py_nat p2, parse_py_nat p3 with
    | some year, some month, some day =>
      if year ≠ 0 then
        match mk_date year month day with
        | some _ => some (render_date year month day)
        | none => none
      else
        match mk_date 2000 month day with
        | some _ => some (render_date year month day)
        | none => none
    | _, _, _ => none
  | _ => none

/-- `_display_date` from `__init__.py` (same code in `sensor.py`):
`YYYY-MM-DD` to `DD-MM-YYYY`, or `DD-MM` when the year is 0. -/
def display_date (stored_date : List Char) : Option (List Char) :=
  match split_on_char '-' stored_date with
  | p0 :: p1 :: p2 :: _ =>
    match parse_py_nat p0, parse_py_nat p1, parse_py_nat p2 with
    | some year, some month, some day =>
      if year = 0 then some (pad2 day ++ '-' :: pad2 month)
      else some (pad2 day ++ '-' :: (pad2 month ++ '-' :: pad4 year))
    | _, _, _ => none
  | _ => none

/-- `_days_until_birthday` from `__init__.py` (the same computation is
`BirthdayCalendar._days_until` and `sensor._days_until`). -/
def days_until_birthday (birthday_date_str : List Char) (today : PyDate) :
    Option Int :=
  match split_on_char '-' birthday_date_str with
  | _ :: p1 :: p2 :: _ =>
    match parse_py_nat p1, parse_py_nat p2 with
    | some month, some day =>
      match mk_date_fallback today.y month day with
      | some this_year =>
        if date_lt this_year today then
          match mk_date_fallback (today.y + 1) month day with
          | some next_year => some (date_sub_days next_year today)
          | none => none
        else some (date_sub_days this_year today)
      | none => none
    | _, _ => none
  | _ => none

/-- `BirthdayCalendar._next_occurrence` from `calendar.py`. -/
def next_occurrence (birthday_date_str : List Char) (today : PyDate) :
    Option PyDate :=
  match split_on_char '-' birthday_date_str with
  | _ :: p1 :: p2 :: _ =>
    match parse_py_nat p1, parse_py_nat p2 with
    | some month, some day =>
      match mk_date_fallback today.y month day with
      | some this_year =>
        if date_lt this_year today then
          mk_date_fallback (today.y + 1) month day
        else some this_year
      | none => none
    | _, _ => none
  | _ => none

/-- `_age_turning` from `__init__.py`; the outer `Option` models an
uncaught exception, the inner one Python `None` (unknown birth year). -/
def age_turning (birthday_date_str : List Char) (today : PyDate) :
    Option (Option Int) :=
  match split_on_char '-' birthday_date_str with
  | p0 :: rest =>
    match parse_py_nat p0 with
    | some year =>
      if year = 0 then some none
      else
        match rest with
        | p1 :: p2 :: _ =>
          match parse_py_nat p1, parse_py_nat p2 with
          | some month, some day =>
            match mk_date_fallback today.y month day with
            | some this_year_bday =>
              if date_lt this_year_bday today then
                some (some ((today.y : Int) + 1 - year))
              else some (some ((today.y : Int) - year))
            | none => none
          | _, _ => none
        | _ => none
    | none => none
  | _ => none

/-- `_age_turning` from `sensor.py`: textually re-splits the stored
string for each field but computes the same thing. -/
def age_turning_sensor (birthday_date_str : List Char) (today : PyDate) :
    Option (Option Int) :=
  match (split_on_char '-' birthday_date_str).head? with
  | some p0 =>
    match parse_py_nat p0 with
    | some year =>
      if year = 0 then some none
      else
        match (split_on_char '-' birthday_date_str).drop 1 with
        | p1 :: p2 :: _ =>
          match parse_py_nat p1, parse_py_nat p2 with
          | some month, some day =>
            match mk_date_fallback today.y month day with
            | some this_year_bday =>
              if date_lt this_year_bday today then
                some (some ((today.y : Int) + 1 - year))
              else some (some ((today.y : Int) - year))
            | none => none
          | _, _ => none
        | _ => none
    | none => none
  | none => none

/-- The reminder-days validation in
`BirthdayTrackerOptionsFlow.async_step_settings`: `true` means the
`invalid_days` error is set (parse failure, empty list, or a negative). -/
def settings_days_error (days_str : List Char) : Bool :=
  match parse_csv_ints days_str with
  | some days => days.isEmpty || days.any (fun d => d < 0)
  | none => true

/-- `DEFAULT_REMINDER_DAYS` from `const.py`. -/
def default_reminder_days_const : List Int := [7, 1, 0]

/-- One stored birthday record (`store.py` keeps these as dicts). -/
structure Birthday where
  id : List Char
  name : List Char
  date : List Char
  reminder_days_before : List Int
  notes : List Char
deriving DecidableEq

/-- `BirthdayStore.async_add`; the fresh id produced by
`uuid.uuid4().hex[:8]` is external entropy, passed in as `new_id`.
Returns the new record and the list that is saved. -/
def async_add (new_id name date_str : List Char)
    (reminder_days_before : Option (List Int)) (notes : List Char)
    (birthdays : List Birthday) : Birthday × List Birthday :=
  let b : Birthday :=
    ⟨new_id, name, date_str,
      reminder_days_before.getD default_reminder_days_const, notes⟩
  (b, birthdays ++ [b])

/-- Remove the first record with the given id, reporting whether one
was found (`list.pop(i)` on the first match). -/
def remove_first (birthday_id : List Char) :
    List Birthday → Bool × List Birthday
  | [] => (false, [])
  | b :: rest =>
    if b.id = birthday_id then (true, rest)
    else
      let r := remove_first birthday_id rest
      (r.1, b :: r.2)

/-- `BirthdayStore.async_remove`: result flag, new list, and the saved
payload (`none` when no save happened). -/
def async_remove (birthday_id : List Char) (birthdays : List Birthday) :
    Bool × List Birthday × Option (List Birthday) :=
  let r := remove_first birthday_id birthdays
  (r.1, r.2, if r.1 then some r.2 else none)

/-- The keyword arguments accepted by `BirthdayStore.async_edit`. -/
structure EditArgs where
  name : Option (List Char)
  date : Option (List Char)
  reminder_days_before : Option (List Int)
  notes : Option (List Char)
deriving DecidableEq

/-- Overwrite exactly the supplied fields of one record. -/
def apply_edit (b : Birthday) (a : EditArgs) : Birthday :=
  ⟨b.id, a.name.getD b.name, a.date.getD b.date,
    a.reminder_days_before.getD b.reminder_days_before,
    a.notes.getD b.notes⟩

/-- Edit the first record with the given id in place. -/
def edit_first (birthday_id : List Char) (a : EditArgs) :
    List Birthday → Option Birthday × List Birthday
  | [] => (none, [])
  | b :: rest =>
    if b.id = birthday_id then
      (some (apply_edit b a), apply_edit b a :: rest)
    else
      let r := edit_first birthday_id a rest
      (r.1, b :: r.2)

/-- `BirthdayStore.async_edit`: merged record (or `none`), new list, and
the saved payload. -/
def async_edit (birthday_id : List Char) (a : EditArgs)
    (birthdays : List Birthday) :
    Option Birthday × List Birthday × Option (List Birthday) :=
  let r := edit_first birthday_id a birthdays
  (r.1, r.2, if r.1.isSome then some r.2 else none)

/-- `BirthdayStore.get_by_id`. -/
def get_by_id (birthday_id : List Char) :
    List Birthday → Option Birthday
  | [] => none
  | b :: rest =>
    if b.id = birthday_id then some b else get_by_id birthday_id rest

/-- One entry of the `list_birthdays` service response. -/
structure ListedBirthday where
  id : List Char
  name : List Char
  date : List Char
  days_until : Int
  age_turning : Option Int
  age_turning_ordinal : Option (List Char)
  reminder_days_before : List Int
  notes : List Char
deriving DecidableEq

/-- Ascending order on the `days_until` sort key used by
`handle_list_birthdays`. -/
def listed_le (a b : ListedBirthday) : Prop :=
  a.days_until ≤ b.days_until

instance : DecidableRel listed_le :=
  fun a b => decidable_of_iff (a.days_until ≤ b.days_until) Iff.rfl

instance : IsTotal ListedBirthday listed_le :=
  ⟨fun a b => Int.le_total a.days_until b.days_until⟩

instance : IsTrans ListedBirthday listed_le :=
  ⟨fun _ _ _ h1 h2 => le_trans h1 h2⟩

/-- Stable ascending sort by `days_until`: the meaning of
`result.sort(key=lambda x: x["days_until"])`. -/
def sort_listed (l : List ListedBirthday) : List ListedBirthday :=
  List.insertionSort listed_le l

/-- Build one response row of `handle_list_birthdays`; `none` models an
exception escaping the handler. -/
def enrich_birthday (today : PyDate) (b : Birthday) :
    Option ListedBirthday :=
  match age_turning b.date today, display_date b.date,
      days_until_birthday b.date today with
  | some age, some disp, some days =>
    some ⟨b.id, b.name, disp, days, age,
      (match age with
       | some a => if a ≠ 0 then some (ordinal a) else none
       | none => none),
      b.reminder_days_before, b.notes⟩
  | _, _, _ => none

/-- `handle_list_birthdays` from `__init__.py`: enrich every stored
record, then sort ascending by `days_until`. -/
def handle_list_birthdays (today : PyDate) (birthdays : List Birthday) :
    Option (List ListedBirthday) :=
  match birthdays.mapM (enrich_birthday today) with
  | some rows => some (sort_listed rows)
  | none => none

/-- `handle_add_birthday` from `__init__.py`: normalize the date, parse
the reminder string (falsy input falls back to the default set), add to
the store, and answer with id, name and display date. -/
def handle_add_birthday (new_id name date_in : List Char)
    (reminder_in : Option (List Char)) (notes : List Char)
    (default_reminder_days : List Int) (birthdays : List Birthday) :
    Option ((List Char × List Char × List Char) × List Birthday) :=
  match normalize_date date_in with
  | none => none
  | some date_str =>
    match
      (match reminder_in with
       | some rs =>
         if rs.isEmpty then some default_reminder_days
         else parse_reminder_days rs
       | none => some default_reminder_days) with
    | none => none
    | some reminder_days =>
      let r := async_add new_id name date_str (some reminder_days) notes
        birthdays
      match display_date r.1.date with
      | some disp => some ((r.1.id, r.1.name, disp), r.2)
      | none => none

/-- `handle_remove_birthday` from `__init__.py`: call the store removal
and raise `ValueError` (`none`) when it reports not-found; otherwise
answer `{"removed": id}`.  The store state after the call is returned
alongside the response. -/
def handle_remove_birthday (birthday_id : List Char)
    (birthdays : List Birthday) :
    Option (List Char × List Birthday) :=
  let r := async_remove birthday_id birthdays
  if r.1 then some (birthday_id, r.2.1) else none

/-- Process one optional service field whose conversion can raise:
absent stays absent, present is converted, a conversion failure
propagates (`none`). -/
def opt_field {α : Type} (f : List Char → Option α) :
    Option (List Char) → Option (Option α)
  | some v =>
    match f v with
    | some r => some (some r)
    | none => none
  | none => some none

/-- `handle_edit_birthday` from `__init__.py`: build the keyword
arguments from the fields present in the call (the date is normalized,
the reminder string is parsed — an empty string parses to the empty
list, with no fallback), call the store edit, and raise `ValueError`
(`none`) when the id is unknown.  The store state after the call is
returned alongside the merged record. -/
def handle_edit_birthday (birthday_id : List Char)
    (name_in date_in reminder_in notes_in : Option (List Char))
    (birthdays : List Birthday) : Option (Birthday × List Birthday) :=
  match opt_field normalize_date date_in with
  | none => none
  | some date_arg =>
    match opt_field parse_reminder_days reminder_in with
    | none => none
    | some rd_arg =>
      let r := async_edit birthday_id
        ⟨name_in, date_arg, rd_arg, notes_in⟩ birthdays
      match r.1 with
      | some merged => some (merged, r.2.1)
      | none => none

/-! ### Lemmas about characters, digits and rendering -/

theorem digit_ch_is_digit (k : Nat) : is_digit_ch (digit_ch k) = true := by
  unfold digit_ch
  split <;> decide

theorem digit_val_digit_ch {k : Nat} (h : k < 10) :
    digit_val (digit_ch k) = k := by
  interval_cases k <;> decide

theorem is_digit_ne_dash {c : Char} (h : is_digit_ch c = true) :
    c ≠ '-' := by
  intro he
  subst he
  simp [is_digit_ch] at h

theorem is_digit_not_space {c : Char} (h : is_digit_ch c = true) :
    is_space_ch c = false := by
  cases hs : is_space_ch c with
  | false => rfl
  | true =>
    exfalso
    unfold is_space_ch at hs
    simp only [Bool.or_eq_true, beq_iff_eq] at hs
    rcases hs with ((h1 | h1) | h1) | h1 <;> subst h1 <;>
      simp [is_digit_ch] at h

theorem nat_digits_aux_all_digits :
    ∀ fuel n, n < fuel → ∀ c ∈ nat_digits_aux fuel n, is_digit_ch c = true := by
  intro fuel
  induction fuel with
  | zero => intro n h; omega
  | succ fuel ih =>
    intro n _ c hc
    rw [nat_digits_aux] at hc
    by_cases h10 : n < 10
    · simp only [if_pos h10, List.mem_singleton] at hc
      subst hc; exact digit_ch_is_digit n
    · simp only [if_neg h10, List.mem_append, List.mem_singleton] at hc
      rcases hc with hc | hc
      · exact ih (n / 10) (by omega) c hc
      · subst hc; exact digit_ch_is_digit (n % 10)

theorem nat_digits_all_digits (n : Nat) :
    ∀ c ∈ nat_digits n, is_digit_ch c = true :=
  nat_digits_aux_all_digits (n + 1) n (Nat.lt_succ_self n)

theorem nat_digits_aux_ne_nil :
    ∀ fuel n, n < fuel → nat_digits_aux fuel n ≠ [] := by
  intro fuel
  induction fuel with
  | zero => intro n h; omega
  | succ fuel _ =>
    intro n _
    rw [nat_digits_aux]
    by_cases h10 : n < 10
    · simp [h10]
    · simp [h10]

theorem nat_digits_ne_nil (n : Nat) : nat_digits n ≠ [] :=
  nat_digits_aux_ne_nil (n + 1) n (Nat.lt_succ_self n)

theorem foldl_nat_digits_aux :
    ∀ fuel n a, n < fuel →
      (nat_digits_aux fuel n).foldl (fun a c => a * 10 + digit_val c) a =
        a * 10 ^ (nat_digits_aux fuel n).length + n := by
  intro fuel
  induction fuel with
  | zero => intro n a h; omega
  | succ fuel ih =>
    intro n a _
    rw [nat_digits_aux]
    by_cases h10 : n < 10
    · simp only [if_pos h10, List.foldl_cons, List.foldl_nil,
        List.length_singleton, pow_one]
      rw [digit_val_digit_ch h10]
    · simp only [if_neg h10, List.foldl_append, List.foldl_cons,
        List.foldl_nil, List.length_append, List.length_singleton]
      rw [ih (n / 10) a (by omega)]
      rw [digit_val_digit_ch (Nat.mod_lt n (by omega))]
      rw [pow_succ]
      generalize (10 : Nat) ^ (nat_digits_aux fuel (n / 10)).length = X
      have hn : n / 10 * 10 + n % 10 = n := by omega
      calc (a * X + n / 10) * 10 + n % 10
          = a * (X * 10) + (n / 10 * 10 + n % 10) := by ring
        _ = a * (X * 10) + n := by rw [hn]

theorem parse_val_nat_digits (n : Nat) : parse_val (nat_digits n) = n := by
  unfold parse_val nat_digits
  rw [foldl_nat_digits_aux (n + 1) n 0 (Nat.lt_succ_self n)]
  simp

theorem foldl_zero_replicate (k : Nat) :
    (List.replicate k '0').foldl (fun a c => a * 10 + digit_val c) 0 = 0 := by
  induction k with
  | zero => rfl
  | succ k ih => simpa [List.replicate_succ, digit_val] using ih

theorem pad_left_all_digits (k : Nat) (n : Nat) :
    ∀ c ∈ pad_left k (nat_digits n), is_digit_ch c = true := by
  intro c hc
  unfold pad_left at hc
  rcases List.mem_append.mp hc with hc | hc
  · rw [List.eq_of_mem_replicate hc]; decide
  · exact nat_digits_all_digits n c hc

theorem parse_py_nat_pad_left (k n : Nat) :
    parse_py_nat (pad_left k (nat_digits n)) = some n := by
  unfold parse_py_nat
  rw [if_neg, if_pos]
  · unfold parse_val pad_left
    rw [List.foldl_append, foldl_zero_replicate]
    have := parse_val_nat_digits n
    unfold parse_val at this
    rw [this]
  · rw [List.all_eq_true]
    exact pad_left_all_digits k n
  · simp only [List.isEmpty_eq_true]
    unfold pad_left
    intro h
    rcases List.append_eq_nil.mp h with ⟨_, h2⟩
    exact nat_digits_ne_nil n h2

theorem parse_py_nat_pad2 (n : Nat) : parse_py_nat (pad2 n) = some n :=
  parse_py_nat_pad_left 2 n

theorem parse_py_nat_pad4 (n : Nat) : parse_py_nat (pad4 n) = some n :=
  parse_py_nat_pad_left 4 n

theorem pad2_all_digits (n : Nat) : ∀ c ∈ pad2 n, is_digit_ch c = true :=
  pad_left_all_digits 2 n

theorem pad4_all_digits (n : Nat) : ∀ c ∈ pad4 n, is_digit_ch c = true :=
  pad_left_all_digits 4 n

/-! ### Lemmas about splitting and stripping -/

theorem split_on_char_ne_nil (sep : Char) (l : List Char) :
    split_on_char sep l ≠ [] := by
  cases l with
  | nil => simp [split_on_char]
  | cons c rest =>
    rw [split_on_char]
    rcases h : split_on_char sep rest with _ | ⟨h1, t⟩ <;>
      by_cases hc : c == sep <;> simp [hc]

theorem split_on_char_no_sep {sep : Char} {l : List Char}
    (h : ∀ c ∈ l, c ≠ sep) : split_on_char sep l = [l] := by
  induction l with
  | nil => rfl
  | cons c rest ih =>
    rw [split_on_char]
    rw [ih (fun x hx => h x (List.mem_cons_of_mem c hx))]
    have hc : (c == sep) = false := by
      simp only [beq_eq_false_iff_ne, ne_eq]
      exact h c (List.mem_cons_self c rest)
    simp [hc]

theorem split_on_char_append {sep : Char} {a : List Char}
    (rest : List Char) (h : ∀ c ∈ a, c ≠ sep) :
    split_on_char sep (a ++ sep :: rest) =
      a :: split_on_char sep rest := by
  induction a with
  | nil =>
    simp only [List.nil_append]
    rw [split_on_char]
    rcases hr : split_on_char sep rest with _ | ⟨h1, t⟩
    · exact absurd hr (split_on_char_ne_nil sep rest)
    · simp
  | cons c a ih =>
    simp only [List.cons_append]
    rw [split_on_char]
    rw [ih (fun x hx => h x (List.mem_cons_of_mem c hx))]
    have hc : (c == sep) = false := by
      simp only [beq_eq_false_iff_ne, ne_eq]
      exact h c (List.mem_cons_self c a)
    simp [hc]

theorem dropWhile_eq_self_of {p : Char → Bool} {l : List Char}
    (h : ∀ c ∈ l, p c = false) : l.dropWhile p = l := by
  cases l with
  | nil => rfl
  | cons c rest =>
    rw [List.dropWhile_cons, h c (List.mem_cons_self c rest)]
    simp

theorem py_strip_eq_self {l : List Char}
    (h : ∀ c ∈ l, is_space_ch c = false) : py_strip l = l := by
  unfold py_strip
  rw [dropWhile_eq_self_of h]
  rw [dropWhile_eq_self_of (fun c hc => h c (List.mem_reverse.mp hc))]
  exact List.reverse_reverse l

theorem render_date_mem {y m d : Nat} :
    ∀ c ∈ render_date y m d, c = '-' ∨ is_digit_ch c = true := by
  intro c hc
  unfold render_date at hc
  simp only [List.mem_append, List.mem_cons] at hc
  rcases hc with hc | hc | hc | hc | hc
  · exact Or.inr (pad4_all_digits y c hc)
  · exact Or.inl hc
  · exact Or.inr (pad2_all_digits m c hc)
  · exact Or.inl hc
  · exact Or.inr (pad2_all_digits d c hc)

theorem render_date_no_space {y m d : Nat} :
    ∀ c ∈ render_date y m d, is_space_ch c = false := by
  intro c hc
  rcases render_date_mem c hc with h | h
  · subst h; decide
  · exact is_digit_not_space h

theorem py_strip_render_date (y m d : Nat) :
    py_strip (render_date y m d) = render_date y m d :=
  py_strip_eq_self render_date_no_space

theorem split_render_date (y m d : Nat) :
    split_on_char '-' (render_date y m d) = [pad4 y, pad2 m, pad2 d] := by
  unfold render_date
  rw [split_on_char_append _
    (fun c hc => is_digit_ne_dash (pad4_all_digits y c hc))]
  rw [split_on_char_append _
    (fun c hc => is_digit_ne_dash (pad2_all_digits m c hc))]
  rw [split_on_char_no_sep
    (fun c hc => is_digit_ne_dash (pad2_all_digits d c hc))]

/-! ### Calendar arithmetic -/

theorem is_leap_iff {y : Nat} :
    is_leap y = true ↔ (y % 4 = 0 ∧ y % 100 ≠ 0) ∨ y % 400 = 0 := by
  unfold is_leap
  simp [Bool.or_eq_true, Bool.and_eq_true, beq_iff_eq, bne_iff_ne]

theorem bool_bit_le (b : Bool) : bool_bit b ≤ 1 := by
  cases b <;> simp [bool_bit]

theorem days_before_year_succ {y : Nat} (hy : 1 ≤ y) :
    days_before_year (y + 1) =
      days_before_year y + 365 + bool_bit (is_leap y) := by
  unfold days_before_year bool_bit
  split_ifs with h
  · rw [is_leap_iff] at h
    omega
  · rw [is_leap_iff] at h
    omega

theorem month_length_ge_28 {leap : Bool} {m : Nat} (hm1 : 1 ≤ m)
    (hm2 : m ≤ 12) : 28 ≤ month_length leap m := by
  interval_cases m <;> cases leap <;> decide

theorem cum_bounds {leap : Bool} {m d : Nat} (hm1 : 1 ≤ m) (hm2 : m ≤ 12)
    (hd1 : 1 ≤ d) (hd2 : d ≤ month_length leap m) :
    1 ≤ cum_days leap m + d ∧
      cum_days leap m + d ≤ 365 + bool_bit leap := by
  interval_cases m <;> cases leap <;>
    simp [month_length, cum_days, bool_bit] at hd2 ⊢ <;> omega

set_option maxHeartbeats 2000000 in
theorem cum_inj {leap : Bool} {m1 d1 m2 d2 : Nat}
    (hm1 : 1 ≤ m1) (hm1' : m1 ≤ 12) (hd1 : 1 ≤ d1)
    (hd1' : d1 ≤ month_length leap m1)
    (hm2 : 1 ≤ m2) (hm2' : m2 ≤ 12) (hd2 : 1 ≤ d2)
    (hd2' : d2 ≤ month_length leap m2)
    (h : cum_days leap m1 + d1 = cum_days leap m2 + d2) :
    m1 = m2 ∧ d1 = d2 := by
  cases leap <;> interval_cases m1 <;> interval_cases m2 <;>
    simp [month_length, cum_days] at hd1' hd2' h ⊢ <;> omega

set_option maxHeartbeats 1000000 in
theorem fallback_gap {l1 l2 : Bool} {m d : Nat} (hmd : valid_md m d) :
    cum_days l2 m + fb_day l2 m d + bool_bit l1 ≤
      cum_days l1 m + fb_day l1 m d + 1 := by
  obtain ⟨hm1, hm2, hd1, hd2⟩ := hmd
  cases l1 <;> cases l2 <;> interval_cases m <;>
    simp [month_length, cum_days, fb_day, bool_bit] at hd2 ⊢ <;>
    split_ifs <;> omega

theorem mk_date_some {y m d : Nat} {dt : PyDate}
    (h : mk_date y m d = some dt) :
    is_valid_date dt = true ∧ dt = ⟨y, m, d⟩ := by
  unfold mk_date at h
  split at h
  · cases h
    exact ⟨by assumption, rfl⟩
  · cases h

theorem mk_date_fallback_some {y m d : Nat} {dt : PyDate}
    (h : mk_date_fallback y m d = some dt) :
    is_valid_date dt = true ∧ dt.y = y ∧ dt.m = m := by
  unfold mk_date_fallback at h
  split at h
  · next heq =>
    cases h
    obtain ⟨hv, he⟩ := mk_date_some heq
    exact ⟨he ▸ hv, by rw [he], by rw [he]⟩
  · obtain ⟨hv, he⟩ := mk_date_some h
    exact ⟨hv, by rw [he], by rw [he]⟩

theorem fb_day_bounds {leap : Bool} {m d : Nat} (hmd : valid_md m d) :
    1 ≤ fb_day leap m d ∧ fb_day leap m d ≤ month_length leap m := by
  obtain ⟨hm1, hm2, hd1, hd2⟩ := hmd
  unfold fb_day
  by_cases h : d ≤ month_length leap m
  · rw [if_pos h]; exact ⟨hd1, h⟩
  · rw [if_neg h]
    exact ⟨by omega, month_length_ge_28 hm1 hm2⟩

theorem mk_date_fallback_spec {y m d : Nat} (hmd : valid_md m d)
    (hy1 : 1 ≤ y) (hy2 : y ≤ 9999) :
    mk_date_fallback y m d = some ⟨y, m, fb_day (is_leap y) m d⟩ := by
  obtain ⟨hm1, hm2, hd1, hd2⟩ := hmd
  unfold mk_date_fallback mk_date fb_day
  by_cases h : d ≤ month_length (is_leap y) m
  · rw [if_pos h]
    rw [if_pos (by simp [is_valid_date]; omega)]
  · rw [if_neg h]
    rw [if_neg (by simp [is_valid_date]; omega)]
    have h28 : 28 ≤ month_length (is_leap y) m := month_length_ge_28 hm1 hm2
    rw [if_pos (by simp [is_valid_date]; omega)]

theorem to_ordinal_lower {dt : PyDate} (h : is_valid_date dt = true) :
    days_before_year dt.y + 1 ≤ to_ordinal dt := by
  simp only [is_valid_date, decide_eq_true_eq] at h
  obtain ⟨_, _, hm1, hm2, hd1, hd2⟩ := h
  have h1 := (cum_bounds hm1 hm2 hd1 hd2).1
  unfold to_ordinal
  omega

theorem to_ordinal_upper {dt : PyDate} (h : is_valid_date dt = true) :
    to_ordinal dt ≤
      days_before_year dt.y + 365 + bool_bit (is_leap dt.y) := by
  simp only [is_valid_date, decide_eq_true_eq] at h
  obtain ⟨_, _, hm1, hm2, hd1, hd2⟩ := h
  have h2 := (cum_bounds hm1 hm2 hd1 hd2).2
  unfold to_ordinal
  omega

/-! ### Evaluating the date functions on canonical stored dates -/

theorem two_pads_mem {x y : Nat} :
    ∀ c ∈ pad2 x ++ '-' :: pad2 y, c = '-' ∨ is_digit_ch c = true := by
  intro c hc
  simp only [List.mem_append, List.mem_cons] at hc
  rcases hc with hc | hc | hc
  · exact Or.inr (pad2_all_digits x c hc)
  · exact Or.inl hc
  · exact Or.inr (pad2_all_digits y c hc)

theorem py_strip_two_pads (x y : Nat) :
    py_strip (pad2 x ++ '-' :: pad2 y) = pad2 x ++ '-' :: pad2 y := by
  apply py_strip_eq_self
  intro c hc
  rcases two_pads_mem c hc with h | h
  · subst h; decide
  · exact is_digit_not_space h

theorem split_two_pads (x y : Nat) :
    split_on_char '-' (pad2 x ++ '-' :: pad2 y) = [pad2 x, pad2 y] := by
  rw [split_on_char_append _
    (fun c hc => is_digit_ne_dash (pad2_all_digits x c hc))]
  rw [split_on_char_no_sep
    (fun c hc => is_digit_ne_dash (pad2_all_digits y c hc))]

theorem three_pads_mem {x y z : Nat} :
    ∀ c ∈ pad2 x ++ '-' :: (pad2 y ++ '-' :: pad4 z),
      c = '-' ∨ is_digit_ch c = true := by
  intro c hc
  simp only [List.mem_append, List.mem_cons] at hc
  rcases hc with hc | hc | hc | hc | hc
  · exact Or.inr (pad2_all_digits x c hc)
  · exact Or.inl hc
  · exact Or.inr (pad2_all_digits y c hc)
  · exact Or.inl hc
  · exact Or.inr (pad4_all_digits z c hc)

theorem py_strip_three_pads (x y z : Nat) :
    py_strip (pad2 x ++ '-' :: (pad2 y ++ '-' :: pad4 z)) =
      pad2 x ++ '-' :: (pad2 y ++ '-' :: pad4 z) := by
  apply py_strip_eq_self
  intro c hc
  rcases three_pads_mem c hc with h | h
  · subst h; decide
  · exact is_digit_not_space h

theorem split_three_pads (x y z : Nat) :
    split_on_char '-' (pad2 x ++ '-' :: (pad2 y ++ '-' :: pad4 z)) =
      [pad2 x, pad2 y, pad4 z] := by
  rw [split_on_char_append _
    (fun c hc => is_digit_ne_dash (pad2_all_digits x c hc))]
  rw [split_on_char_append _
    (fun c hc => is_digit_ne_dash (pad2_all_digits y c hc))]
  rw [split_on_char_no_sep
    (fun c hc => is_digit_ne_dash (pad4_all_digits z c hc))]

theorem days_until_render {m d : Nat} (y0 : Nat) {today : PyDate}
    (hmd : valid_md m d) (hy1 : 1 ≤ today.y) (hy2 : today.y ≤ 9998) :
    days_until_birthday (render_date y0 m d) today =
      (if date_lt ⟨today.y, m, fb_day (is_leap today.y) m d⟩ today then
        some (date_sub_days
          ⟨today.y + 1, m, fb_day (is_leap (today.y + 1)) m d⟩ today)
      else
        some (date_sub_days
          ⟨today.y, m, fb_day (is_leap today.y) m d⟩ today)) := by
  unfold days_until_birthday
  rw [split_render_date]
  simp only [parse_py_nat_pad2,
    mk_date_fallback_spec hmd hy1 (by omega),
    mk_date_fallback_spec hmd (by omega : 1 ≤ today.y + 1)
      (by omega : today.y + 1 ≤ 9999)]

theorem next_occurrence_render {m d : Nat} (y0 : Nat) {today : PyDate}
    (hmd : valid_md m d) (hy1 : 1 ≤ today.y) (hy2 : today.y ≤ 9998) :
    next_occurrence (render_date y0 m d) today =
      (if date_lt ⟨today.y, m, fb_day (is_leap today.y) m d⟩ today then
        some ⟨today.y + 1, m, fb_day (is_leap (today.y + 1)) m d⟩
      else some ⟨today.y, m, fb_day (is_leap today.y) m d⟩) := by
  unfold next_occurrence
  rw [split_render_date]
  simp only [parse_py_nat_pad2,
    mk_date_fallback_spec hmd hy1 (by omega),
    mk_date_fallback_spec hmd (by omega : 1 ≤ today.y + 1)
      (by omega : today.y + 1 ≤ 9999)]

theorem age_turning_render {m d : Nat} (y0 : Nat) {today : PyDate}
    (hmd : valid_md m d) (hy1 : 1 ≤ today.y) (hy2 : today.y ≤ 9999) :
    age_turning (render_date y0 m d) today =
      some (if y0 = 0 then none
        else some
          (if date_lt ⟨today.y, m, fb_day (is_leap today.y) m d⟩ today then
            (today.y : Int) + 1 - y0
          else (today.y : Int) - y0)) := by
  unfold age_turning
  rw [split_render_date]
  simp only [parse_py_nat_pad4, parse_py_nat_pad2,
    mk_date_fallback_spec hmd hy1 hy2]
  by_cases hy0 : y0 = 0 <;> simp [hy0]
  split_ifs <;> rfl

theorem age_turning_sensor_eq (ds : List Char) (today : PyDate) :
    age_turning_sensor ds today = age_turning ds today := by
  unfold age_turning_sensor age_turning
  rcases h : split_on_char '-' ds with _ | ⟨p0, rest⟩
  · exact absurd h (split_on_char_ne_nil '-' ds)
  · simp

theorem valid_eq_of_ord_eq_same_year {a b : PyDate}
    (ha : is_valid_date a = true) (hb : is_valid_date b = true)
    (hy : a.y = b.y) (h : to_ordinal a = to_ordinal b) : a = b := by
  have ha' := ha
  have hb' := hb
  simp only [is_valid_date, decide_eq_true_eq] at ha' hb'
  unfold to_ordinal at h
  rw [hy] at h
  have h2 : cum_days (is_leap b.y) a.m + a.d =
      cum_days (is_leap b.y) b.m + b.d := by omega
  have hml : a.d ≤ month_length (is_leap b.y) a.m := by
    rw [← hy]; exact ha'.2.2.2.2.2
  obtain ⟨hm, hd⟩ := cum_inj ha'.2.2.1 ha'.2.2.2.1 ha'.2.2.2.2.1 hml
    hb'.2.2.1 hb'.2.2.2.1 hb'.2.2.2.2.1 hb'.2.2.2.2.2 h2
  cases a
  cases b
  simp_all

/-! ### Claim C2 -/

/-- C2 (amended): for every valid normalized stored month/day and every
reference date of year at most 9998 (so that the next-year fallback
construction cannot overflow `datetime.MAXYEAR`), `_days_until_birthday`
returns an integer in `[0, 365]`, and returns 0 exactly when the next
occurrence of the birthday is the reference date itself. -/
theorem C2_days_until_in_range (y0 m d : Nat) (today : PyDate)
    (hmd : valid_md m d) (hT : is_valid_date today = true)
    (hTy : today.y ≤ 9998) :
    ∃ n : Int, days_until_birthday (render_date y0 m d) today = some n ∧
      0 ≤ n ∧ n ≤ 365 ∧
      (n = 0 ↔ next_occurrence (render_date y0 m d) today = some today) := by
  have hT' := hT
  simp only [is_valid_date, decide_eq_true_eq] at hT'
  obtain ⟨hy1, hy9999, htm1, htm2, htd1, htd2⟩ := hT'
  have hdu := days_until_render y0 hmd hy1 hTy
  have hno := next_occurrence_render y0 hmd hy1 hTy
  have hv1 : is_valid_date ⟨today.y, m, fb_day (is_leap today.y) m d⟩ =
      true :=
    (mk_date_fallback_some (mk_date_fallback_spec hmd hy1 (by omega))).1
  have hv2 : is_valid_date
      ⟨today.y + 1, m, fb_day (is_leap (today.y + 1)) m d⟩ = true :=
    (mk_date_fallback_some (mk_date_fallback_spec hmd
      (by omega : 1 ≤ today.y + 1) (by omega : today.y + 1 ≤ 9999))).1
  have hOrd1 : to_ordinal ⟨today.y, m, fb_day (is_leap today.y) m d⟩ =
      days_before_year today.y + cum_days (is_leap today.y) m +
        fb_day (is_leap today.y) m d := rfl
  have hOrd2 : to_ordinal
      ⟨today.y + 1, m, fb_day (is_leap (today.y + 1)) m d⟩ =
      days_before_year (today.y + 1) +
        cum_days (is_leap (today.y + 1)) m +
        fb_day (is_leap (today.y + 1)) m d := rfl
  have hsucc := days_before_year_succ hy1
  have hupT := to_ordinal_upper hT
  have hlowT := to_ordinal_lower hT
  by_cases hlt :
      date_lt ⟨today.y, m, fb_day (is_leap today.y) m d⟩ today = true
  · -- this year's occurrence already passed: next year's is used
    have hlt' : to_ordinal ⟨today.y, m, fb_day (is_leap today.y) m d⟩ <
        to_ordinal today := by
      unfold date_lt at hlt
      simpa using hlt
    have hlow2 := to_ordinal_lower hv2
    have hup2 := to_ordinal_upper hv2
    have hgap := @fallback_gap (is_leap today.y) (is_leap (today.y + 1))
      m d hmd
    refine ⟨date_sub_days
      ⟨today.y + 1, m, fb_day (is_leap (today.y + 1)) m d⟩ today,
      ?_, ?_, ?_, ?_⟩
    · rw [hdu, if_pos hlt]
    · unfold date_sub_days
      dsimp only at hlow2 ⊢
      omega
    · unfold date_sub_days
      dsimp only at hlow2 hup2 ⊢
      omega
    · constructor
      · intro h0
        exfalso
        unfold date_sub_days at h0
        dsimp only at hlow2 h0
        omega
      · intro hR
        exfalso
        rw [hno, if_pos hlt] at hR
        have h2 := congrArg PyDate.y (Option.some_injective PyDate hR)
        dsimp only at h2
        omega
  · -- this year's occurrence is today or later
    have hlt' : to_ordinal today ≤
        to_ordinal ⟨today.y, m, fb_day (is_leap today.y) m d⟩ := by
      unfold date_lt at hlt
      simp only [decide_eq_true_eq] at hlt
      omega
    have hup1 := to_ordinal_upper hv1
    have hbit := bool_bit_le (is_leap today.y)
    refine ⟨date_sub_days
      ⟨today.y, m, fb_day (is_leap today.y) m d⟩ today, ?_, ?_, ?_, ?_⟩
    · rw [hdu, if_neg hlt]
    · unfold date_sub_days
      omega
    · unfold date_sub_days
      dsimp only at hup1 ⊢
      omega
    · constructor
      · intro h0
        have heq : to_ordinal ⟨today.y, m, fb_day (is_leap today.y) m d⟩ =
            to_ordinal today := by
          unfold date_sub_days at h0
          omega
        have := valid_eq_of_ord_eq_same_year hv1 hT rfl heq
        rw [hno, if_neg hlt, this]
      · intro hR
        rw [hno, if_neg hlt] at hR
        have h2 := congrArg to_ordinal (Option.some_injective PyDate hR)
        unfold date_sub_days
        omega

/-! ### Claims C1 and C7, and the C2 counterexample -/

/-- C1 (counterexample): the spec scenario claims that for stored date
"29-02" (normalized "0000-02-29") and reference date 2023-03-01 the next
occurrence is 2023-02-28; the code instead rolls over to next year's
leap day because 2023-02-28 is before the reference date. -/
theorem C1_scenario_counterexample :
    normalize_date ['2', '9', '-', '0', '2'] =
      some (render_date 0 2 29) ∧
    next_occurrence (render_date 0 2 29) ⟨2023, 3, 1⟩ ≠
      some ⟨2023, 2, 28⟩ := by
  constructor
  · decide
  · decide

/-- C1 (amended): for stored "29-02" and reference date 2023-03-01, the
this-year fallback occurrence 2023-02-28 is strictly before the
reference date, so the next occurrence is 2024-02-29 and days-until is
365, computed against that next-year leap-day occurrence. -/
theorem C1_leap_day_scenario :
    normalize_date ['2', '9', '-', '0', '2'] =
      some (render_date 0 2 29) ∧
    date_lt ⟨2023, 2, 28⟩ ⟨2023, 3, 1⟩ = true ∧
    next_occurrence (render_date 0 2 29) ⟨2023, 3, 1⟩ =
      some ⟨2024, 2, 29⟩ ∧
    days_until_birthday (render_date 0 2 29) ⟨2023, 3, 1⟩ = some 365 := by
  refine ⟨by decide, by decide, by decide, by decide⟩

/-- C2 (counterexample): the claim quantifies over every reference date,
but for a reference date in year 9999 whose birthday has already passed
the code raises an uncaught `ValueError` (`date(10000, m, 28)`) instead
of returning an integer in `[0, 365]`. -/
theorem C2_year_9999_counterexample :
    valid_md 1 1 ∧ is_valid_date ⟨9999, 6, 1⟩ = true ∧
    days_until_birthday (render_date 0 1 1) ⟨9999, 6, 1⟩ = none := by
  refine ⟨by decide, by decide, by decide⟩

/-- C2 (witness): the amended bound instantiated at stored "0000-02-29"
and reference date 2023-03-01. -/
theorem C2_days_until_in_range_witness :
    valid_md 2 29 ∧
    (∃ n : Int,
      days_until_birthday (render_date 0 2 29) ⟨2023, 3, 1⟩ = some n ∧
      0 ≤ n ∧ n ≤ 365 ∧
      (n = 0 ↔ next_occurrence (render_date 0 2 29) ⟨2023, 3, 1⟩ =
        some ⟨2023, 3, 1⟩)) :=
  ⟨by decide,
    C2_days_until_in_range 0 2 29 ⟨2023, 3, 1⟩ (by decide) (by decide)
      (by decide)⟩

/-- C7: `_age_turning` returns the unknown marker (`None`) exactly when
the stored birth year is 0; otherwise it returns reference-year minus
birth-year, plus one exactly when this year's occurrence (with the
Feb-29 fallback) is strictly before the reference date.  The sensor
platform's copy computes the same function. -/
theorem C7_age_turning (y0 m d : Nat) (today : PyDate)
    (hmd : valid_md m d) (hT : is_valid_date today = true) :
    age_turning (render_date y0 m d) today =
      some (if y0 = 0 then none
        else some
          (if date_lt ⟨today.y, m, fb_day (is_leap today.y) m d⟩ today then
            (today.y : Int) + 1 - y0
          else (today.y : Int) - y0)) ∧
    age_turning_sensor (render_date y0 m d) today =
      age_turning (render_date y0 m d) today := by
  have hT' := hT
  simp only [is_valid_date, decide_eq_true_eq] at hT'
  exact ⟨age_turning_render y0 hmd hT'.1 hT'.2.1,
    age_turning_sensor_eq (render_date y0 m d) ⟨today.y, today.m, today.d⟩⟩

/-- C7 (witness): instantiated at stored "1990-02-01" and reference
date 2023-03-01 (occurrence passed, so the age turning is 34). -/
theorem C7_age_turning_witness :
    valid_md 2 1 ∧
    (age_turning (render_date 1990 2 1) ⟨2023, 3, 1⟩ =
      some (if (1990 : Nat) = 0 then none
        else some
          (if date_lt ⟨(⟨2023, 3, 1⟩ : PyDate).y, 2,
              fb_day (is_leap (⟨2023, 3, 1⟩ : PyDate).y) 2 1⟩
              ⟨2023, 3, 1⟩ then
            ((⟨2023, 3, 1⟩ : PyDate).y : Int) + 1 - 1990
          else ((⟨2023, 3, 1⟩ : PyDate).y : Int) - 1990)) ∧
      age_turning_sensor (render_date 1990 2 1) ⟨2023, 3, 1⟩ =
        age_turning (render_date 1990 2 1) ⟨2023, 3, 1⟩) ∧
    age_turning (render_date 1990 2 1) ⟨2023, 3, 1⟩ = some (some 34) :=
  ⟨by decide,
    C7_age_turning 1990 2 1 ⟨2023, 3, 1⟩ (by decide) (by decide),
    by decide⟩

/-! ### Claim C6: normalize/display round trip -/

theorem norm_display_render {y m d : Nat}
    (h0 : y = 0 → ∃ w, mk_date 2000 m d = some w)
    (hy : y ≠ 0 → ∃ w, mk_date y m d = some w) :
    ∃ t, display_date (render_date y m d) = some t ∧
      normalize_date t = some (render_date y m d) := by
  by_cases hy0 : y = 0
  · subst hy0
    obtain ⟨w, hw⟩ := h0 rfl
    refine ⟨pad2 d ++ '-' :: pad2 m, ?_, ?_⟩
    · unfold display_date
      rw [split_render_date]
      simp only [parse_py_nat_pad4, parse_py_nat_pad2]
      simp
    · unfold normalize_date
      rw [py_strip_two_pads, split_two_pads]
      simp only [parse_py_nat_pad2, hw]
  · obtain ⟨w, hw⟩ := hy hy0
    refine ⟨pad2 d ++ '-' :: (pad2 m ++ '-' :: pad4 y), ?_, ?_⟩
    · unfold display_date
      rw [split_render_date]
      simp only [parse_py_nat_pad4, parse_py_nat_pad2]
      rw [if_neg hy0]
    · unfold normalize_date
      rw [py_strip_three_pads, split_three_pads]
      simp only [parse_py_nat_pad2, parse_py_nat_pad4]
      rw [if_pos hy0, hw]

/-- C6: for every input string accepted by `_normalize_date`, displaying
the canonical form and normalizing it again reproduces the canonical
form: `normalize(display(normalize(x))) = normalize(x)`. -/
theorem C6_round_trip (x s : List Char) (h : normalize_date x = some s) :
    ∃ t, display_date s = some t ∧ normalize_date t = some s := by
  unfold normalize_date at h
  split at h
  · -- two segments: day-month, validated against the leap year 2000
    split at h
    · split at h
      · next w hw =>
        rw [Option.some.injEq] at h
        subst h
        exact norm_display_render (fun _ => ⟨w, hw⟩)
          (fun hne => absurd rfl hne)
      · exact Option.noConfusion h
    · exact Option.noConfusion h
  · -- three segments: day-month-year
    split at h
    · next day month year hp1 hp2 hp3 =>
      by_cases hz : year = 0
      · -- year 0: validated against the leap year 2000
        rw [if_neg (by omega)] at h
        split at h
        · next w hw =>
          rw [Option.some.injEq] at h
          subst h
          rw [hz]
          exact norm_display_render (fun _ => ⟨w, hw⟩)
            (fun hne => absurd rfl hne)
        · exact Option.noConfusion h
      · -- year ≠ 0: validated against the stored year
        rw [if_pos hz] at h
        split at h
        · next w hw =>
          rw [Option.some.injEq] at h
          subst h
          exact norm_display_render (fun h0 => absurd h0 hz)
            (fun _ => ⟨w, hw⟩)
        · exact Option.noConfusion h
    · exact Option.noConfusion h
  · exact Option.noConfusion h

/-- C6 (witness): round trip at the accepted input "1-2-1990". -/
theorem C6_round_trip_witness :
    normalize_date ['1', '-', '2', '-', '1', '9', '9', '0'] =
      some (render_date 1990 2 1) ∧
    (∃ t, display_date (render_date 1990 2 1) = some t ∧
      normalize_date t = some (render_date 1990 2 1)) :=
  ⟨by decide,
    C6_round_trip ['1', '-', '2', '-', '1', '9', '9', '0']
      (render_date 1990 2 1) (by decide)⟩

/-! ### Claims C3 and C4: store removal and partial edit -/

theorem remove_first_not_found (birthday_id : List Char) :
    ∀ birthdays : List Birthday,
      (∀ b ∈ birthdays, b.id ≠ birthday_id) →
      remove_first birthday_id birthdays = (false, birthdays) := by
  intro birthdays
  induction birthdays with
  | nil => intro _; rfl
  | cons b t ih =>
    intro h
    simp only [remove_first]
    rw [if_neg (h b (List.mem_cons_self b t))]
    rw [ih (fun x hx => h x (List.mem_cons_of_mem b hx))]

/-- C3 (counterexample): removing an id present in no record does not
reach the caller as a not-found result without an error: the remove
service handler (`handle_remove_birthday`) raises `ValueError` (`none`)
for the missing id. -/
theorem C3_service_remove_raises :
    (∀ b ∈ [(⟨['a'], ['A'], render_date 0 1 5, [7, 1, 0], []⟩ : Birthday)],
      b.id ≠ ['z']) ∧
    handle_remove_birthday ['z']
        [(⟨['a'], ['A'], render_date 0 1 5, [7, 1, 0], []⟩ : Birthday)] =
      none :=
  ⟨by decide, by decide⟩

/-- C3 (amended): on an id present in no record, the store operation
`async_remove` returns the not-found flag `False` to its caller without
raising, leaves the record list unchanged, and performs no save; the
remove service handler then converts that flag into a raised
`ValueError` (`none`) instead of returning a not-found response, still
leaving the store unchanged. -/
theorem C3_remove_not_found (birthday_id : List Char)
    (birthdays : List Birthday)
    (h : ∀ b ∈ birthdays, b.id ≠ birthday_id) :
    async_remove birthday_id birthdays = (false, birthdays, none) ∧
    handle_remove_birthday birthday_id birthdays = none := by
  have h1 : async_remove birthday_id birthdays =
      (false, birthdays, none) := by
    unfold async_remove
    rw [remove_first_not_found birthday_id birthdays h]
    rfl
  refine ⟨h1, ?_⟩
  unfold handle_remove_birthday
  rw [h1]
  rfl

/-- C3 (witness): removing the absent id "z" from a one-record store. -/
theorem C3_remove_not_found_witness :
    (∀ b ∈ [(⟨['a'], ['A'], render_date 0 1 5, [7, 1, 0], []⟩ : Birthday)],
      b.id ≠ ['z']) ∧
    (async_remove ['z']
        [(⟨['a'], ['A'], render_date 0 1 5, [7, 1, 0], []⟩ : Birthday)] =
      (false, [(⟨['a'], ['A'], render_date 0 1 5, [7, 1, 0], []⟩ : Birthday)],
        none) ∧
    handle_remove_birthday ['z']
        [(⟨['a'], ['A'], render_date 0 1 5, [7, 1, 0], []⟩ : Birthday)] =
      none) :=
  ⟨by decide,
    C3_remove_not_found ['z']
      [(⟨['a'], ['A'], render_date 0 1 5, [7, 1, 0], []⟩ : Birthday)]
      (by decide)⟩

theorem edit_first_append (birthday_id : List Char) (a : EditArgs) :
    ∀ pre : List Birthday, (∀ b ∈ pre, b.id ≠ birthday_id) →
      ∀ (r : Birthday) (post : List Birthday), r.id = birthday_id →
      edit_first birthday_id a (pre ++ r :: post) =
        (some (apply_edit r a), pre ++ apply_edit r a :: post) := by
  intro pre
  induction pre with
  | nil =>
    intro _ r post hr
    simp only [List.nil_append, edit_first]
    rw [if_pos hr]
  | cons b t ih =>
    intro h r post hr
    simp only [List.cons_append, edit_first, List.append_eq]
    rw [if_neg (h b (List.mem_cons_self b t))]
    rw [ih (fun x hx => h x (List.mem_cons_of_mem b hx)) r post hr]

/-- C4: editing the record with the matching id overwrites exactly the
supplied fields: the store becomes `pre ++ merged :: post` (every other
record byte-for-byte unchanged), the merged record keeps its id, each
absent field keeps its old value, and each supplied field takes the
supplied value. -/
theorem C4_edit_partial_update (birthday_id : List Char) (a : EditArgs)
    (pre post : List Birthday) (r : Birthday)
    (hr : r.id = birthday_id) (hpre : ∀ b ∈ pre, b.id ≠ birthday_id) :
    async_edit birthday_id a (pre ++ r :: post) =
      (some (apply_edit r a), pre ++ apply_edit r a :: post,
        some (pre ++ apply_edit r a :: post)) ∧
    (apply_edit r a).id = r.id ∧
    (a.name = none → (apply_edit r a).name = r.name) ∧
    (∀ v, a.name = some v → (apply_edit r a).name = v) ∧
    (a.date = none → (apply_edit r a).date = r.date) ∧
    (∀ v, a.date = some v → (apply_edit r a).date = v) ∧
    (a.reminder_days_before = none →
      (apply_edit r a).reminder_days_before = r.reminder_days_before) ∧
    (∀ v, a.reminder_days_before = some v →
      (apply_edit r a).reminder_days_before = v) ∧
    (a.notes = none → (apply_edit r a).notes = r.notes) ∧
    (∀ v, a.notes = some v → (apply_edit r a).notes = v) := by
  refine ⟨?_, rfl, ?_, ?_, ?_, ?_, ?_, ?_, ?_, ?_⟩
  · unfold async_edit
    rw [edit_first_append birthday_id a pre hpre r post hr]
    rfl
  · intro hn; simp [apply_edit, hn]
  · intro v hv; simp [apply_edit, hv]
  · intro hn; simp [apply_edit, hn]
  · intro v hv; simp [apply_edit, hv]
  · intro hn; simp [apply_edit, hn]
  · intro v hv; simp [apply_edit, hv]
  · intro hn; simp [apply_edit, hn]
  · intro v hv; simp [apply_edit, hv]

/-- C4 (witness): editing only the name of the middle record of three. -/
theorem C4_edit_partial_update_witness :
    ((⟨['b'], ['B'], render_date 0 1 5, [7], []⟩ : Birthday).id = ['b']) ∧
    (∀ x ∈ [(⟨['a'], ['A'], render_date 0 1 3, [1], []⟩ : Birthday)],
      x.id ≠ ['b']) ∧
    (async_edit ['b'] ⟨some ['N'], none, none, none⟩
        ([(⟨['a'], ['A'], render_date 0 1 3, [1], []⟩ : Birthday)] ++
          (⟨['b'], ['B'], render_date 0 1 5, [7], []⟩ : Birthday) ::
          [(⟨['c'], ['C'], render_date 0 1 7, [0], []⟩ : Birthday)]) =
      (some (apply_edit ⟨['b'], ['B'], render_date 0 1 5, [7], []⟩
          ⟨some ['N'], none, none, none⟩),
        [(⟨['a'], ['A'], render_date 0 1 3, [1], []⟩ : Birthday)] ++
          apply_edit ⟨['b'], ['B'], render_date 0 1 5, [7], []⟩
            ⟨some ['N'], none, none, none⟩ ::
          [(⟨['c'], ['C'], render_date 0 1 7, [0], []⟩ : Birthday)],
        some ([(⟨['a'], ['A'], render_date 0 1 3, [1], []⟩ : Birthday)] ++
          apply_edit ⟨['b'], ['B'], render_date 0 1 5, [7], []⟩
            ⟨some ['N'], none, none, none⟩ ::
          [(⟨['c'], ['C'], render_date 0 1 7, [0], []⟩ : Birthday)]))) ∧
    apply_edit ⟨['b'], ['B'], render_date 0 1 5, [7], []⟩
        ⟨some ['N'], none, none, none⟩ =
      ⟨['b'], ['N'], render_date 0 1 5, [7], []⟩ :=
  ⟨by decide, by decide,
    (C4_edit_partial_update ['b'] ⟨some ['N'], none, none, none⟩
      [⟨['a'], ['A'], render_date 0 1 3, [1], []⟩]
      [⟨['c'], ['C'], render_date 0 1 7, [0], []⟩]
      ⟨['b'], ['B'], render_date 0 1 5, [7], []⟩
      (by decide) (by decide)).1,
    by decide⟩

/-! ### Claim C5: the list service is sorted and stable -/

theorem filter_orderedInsert_listed (k : Int) (a : ListedBirthday) :
    ∀ l : List ListedBirthday,
      (List.orderedInsert listed_le a l).filter
          (fun e => decide (e.days_until = k)) =
        ((a :: l).filter (fun e => decide (e.days_until = k))) := by
  intro l
  induction l with
  | nil => rfl
  | cons b t ih =>
    rw [List.orderedInsert]
    by_cases hab : listed_le a b
    · rw [if_pos hab]
    · rw [if_neg hab]
      have hlt : b.days_until < a.days_until := by
        unfold listed_le at hab
        omega
      by_cases hpa : a.days_until = k
      · have hpb : ¬b.days_until = k := by omega
        simp [List.filter_cons, hpa, hpb, ih]
      · simp [List.filter_cons, hpa, ih]

theorem filter_sort_listed (k : Int) :
    ∀ l : List ListedBirthday,
      (sort_listed l).filter (fun e => decide (e.days_until = k)) =
        l.filter (fun e => decide (e.days_until = k)) := by
  intro l
  induction l with
  | nil => rfl
  | cons a t ih =>
    have h1 : sort_listed (a :: t) =
        List.orderedInsert listed_le a (sort_listed t) := rfl
    rw [h1, filter_orderedInsert_listed, List.filter_cons,
      List.filter_cons, ih]

/-- C5: whenever enrichment succeeds on every stored record, the list
service returns exactly the enriched records, stably sorted ascending by
`days_until`: the result is a permutation of the enriched rows, it is
sorted, and for every key the records with that `days_until` appear in
their original store order. -/
theorem C5_list_sorted_stable (today : PyDate) (birthdays : List Birthday)
    (es : List ListedBirthday)
    (h : birthdays.mapM (enrich_birthday today) = some es) :
    handle_list_birthdays today birthdays = some (sort_listed es) ∧
    List.Perm (sort_listed es) es ∧
    List.Sorted listed_le (sort_listed es) ∧
    (∀ k : Int,
      (sort_listed es).filter (fun e => decide (e.days_until = k)) =
        es.filter (fun e => decide (e.days_until = k))) := by
  refine ⟨?_, List.perm_insertionSort listed_le es,
    List.sorted_insertionSort listed_le es, fun k => filter_sort_listed k es⟩
  unfold handle_list_birthdays
  rw [h]

/-- C5 (witness): a three-record store whose second and third records tie
on `days_until`; the tie keeps store order. -/
theorem C5_list_sorted_stable_witness :
    ([(⟨['b', '2'], ['B'], render_date 0 1 3, [7], []⟩ : Birthday),
      ⟨['a', '1'], ['A'], render_date 0 1 5, [7, 1, 0], []⟩,
      ⟨['c', '3'], ['C'], render_date 0 1 5, [], []⟩].mapM
        (enrich_birthday ⟨2023, 1, 1⟩) =
      some [⟨['b', '2'], ['B'], ['0', '3', '-', '0', '1'], 2, none, none,
          [7], []⟩,
        ⟨['a', '1'], ['A'], ['0', '5', '-', '0', '1'], 4, none, none,
          [7, 1, 0], []⟩,
        ⟨['c', '3'], ['C'], ['0', '5', '-', '0', '1'], 4, none, none,
          [], []⟩]) ∧
    (handle_list_birthdays ⟨2023, 1, 1⟩
        [⟨['b', '2'], ['B'], render_date 0 1 3, [7], []⟩,
          ⟨['a', '1'], ['A'], render_date 0 1 5, [7, 1, 0], []⟩,
          ⟨['c', '3'], ['C'], render_date 0 1 5, [], []⟩] =
      some (sort_listed
        [⟨['b', '2'], ['B'], ['0', '3', '-', '0', '1'], 2, none, none,
            [7], []⟩,
          ⟨['a', '1'], ['A'], ['0', '5', '-', '0', '1'], 4, none, none,
            [7, 1, 0], []⟩,
          ⟨['c', '3'], ['C'], ['0', '5', '-', '0', '1'], 4, none, none,
            [], []⟩]) ∧
      List.Perm (sort_listed
        [⟨['b', '2'], ['B'], ['0', '3', '-', '0', '1'], 2, none, none,
            [7], []⟩,
          ⟨['a', '1'], ['A'], ['0', '5', '-', '0', '1'], 4, none, none,
            [7, 1, 0], []⟩,
          ⟨['c', '3'], ['C'], ['0', '5', '-', '0', '1'], 4, none, none,
            [], []⟩])
        [⟨['b', '2'], ['B'], ['0', '3', '-', '0', '1'], 2, none, none,
            [7], []⟩,
          ⟨['a', '1'], ['A'], ['0', '5', '-', '0', '1'], 4, none, none,
            [7, 1, 0], []⟩,
          ⟨['c', '3'], ['C'], ['0', '5', '-', '0', '1'], 4, none, none,
            [], []⟩] ∧
      List.Sorted listed_le (sort_listed
        [⟨['b', '2'], ['B'], ['0', '3', '-', '0', '1'], 2, none, none,
            [7], []⟩,
          ⟨['a', '1'], ['A'], ['0', '5', '-', '0', '1'], 4, none, none,
            [7, 1, 0], []⟩,
          ⟨['c', '3'], ['C'], ['0', '5', '-', '0', '1'], 4, none, none,
            [], []⟩]) ∧
      (∀ k : Int,
        (sort_listed
          [⟨['b', '2'], ['B'], ['0', '3', '-', '0', '1'], 2, none, none,
              [7], []⟩,
            ⟨['a', '1'], ['A'], ['0', '5', '-', '0', '1'], 4, none, none,
              [7, 1, 0], []⟩,
            ⟨['c', '3'], ['C'], ['0', '5', '-', '0', '1'], 4, none, none,
              [], []⟩]).filter (fun e => decide (e.days_until = k)) =
          ([⟨['b', '2'], ['B'], ['0', '3', '-', '0', '1'], 2, none, none,
              [7], []⟩,
            ⟨['a', '1'], ['A'], ['0', '5', '-', '0', '1'], 4, none, none,
              [7, 1, 0], []⟩,
            ⟨['c', '3'], ['C'], ['0', '5', '-', '0', '1'], 4, none, none,
              [], []⟩] :
            List ListedBirthday).filter
            (fun e => decide (e.days_until = k)))) ∧
    sort_listed
        [⟨['b', '2'], ['B'], ['0', '3', '-', '0', '1'], 2, none, none,
            [7], []⟩,
          ⟨['a', '1'], ['A'], ['0', '5', '-', '0', '1'], 4, none, none,
            [7, 1, 0], []⟩,
          ⟨['c', '3'], ['C'], ['0', '5', '-', '0', '1'], 4, none, none,
            [], []⟩] =
      [⟨['b', '2'], ['B'], ['0', '3', '-', '0', '1'], 2, none, none,
          [7], []⟩,
        ⟨['a', '1'], ['A'], ['0', '5', '-', '0', '1'], 4, none, none,
          [7, 1, 0], []⟩,
        ⟨['c', '3'], ['C'], ['0', '5', '-', '0', '1'], 4, none, none,
          [], []⟩] :=
  ⟨by decide,
    C5_list_sorted_stable ⟨2023, 1, 1⟩
      [⟨['b', '2'], ['B'], render_date 0 1 3, [7], []⟩,
        ⟨['a', '1'], ['A'], render_date 0 1 5, [7, 1, 0], []⟩,
        ⟨['c', '3'], ['C'], render_date 0 1 5, [], []⟩]
      [⟨['b', '2'], ['B'], ['0', '3', '-', '0', '1'], 2, none, none,
          [7], []⟩,
        ⟨['a', '1'], ['A'], ['0', '5', '-', '0', '1'], 4, none, none,
          [7, 1, 0], []⟩,
        ⟨['c', '3'], ['C'], ['0', '5', '-', '0', '1'], 4, none, none,
          [], []⟩]
      (by decide),
    by decide⟩

/-! ### Claim C8: where reminder-days validation lives -/

/-- C8 (counterexample): an add call with the negative reminder-days
input "-5" does not fail; it adds a record whose reminder set is `[-5]`
and answers normally, refuting "fails ... before any mutation". -/
theorem C8_negative_reminder_accepted :
    handle_add_birthday ['x'] ['B', 'o', 'b']
        ['1', '-', '2', '-', '1', '9', '9', '0'] (some ['-', '5']) []
        default_reminder_days_const [] =
      some ((['x'], ['B', 'o', 'b'],
          ['0', '1', '-', '0', '2', '-', '1', '9', '9', '0']),
        [⟨['x'], ['B', 'o', 'b'], render_date 1990 2 1, [-5], []⟩]) := by
  decide

/-- C8 (amended): the empty-or-negative reminder-days validation exists
only in the options-flow settings step (its error fires exactly unless
the input parses to a nonempty list of nonnegative integers).  The add
service performs no such check: a falsy (empty or absent) reminder
string falls back to the default set, and negative values are accepted
(counterexample).  The edit service performs no check either and has no
fallback: whatever list the supplied string parses to — the empty list
for the empty string, negative values included — is stored unchanged in
the record. -/
theorem C8_reminder_validation_location (s : List Char)
    (new_id name date_in notes : List Char) (dflt : List Int)
    (birthdays : List Birthday) :
    (settings_days_error s = false ↔
      ∃ l, parse_csv_ints s = some l ∧ l ≠ [] ∧ ∀ d ∈ l, 0 ≤ d) ∧
    (handle_add_birthday new_id name date_in (some []) notes dflt
        birthdays =
      handle_add_birthday new_id name date_in none notes dflt
        birthdays) ∧
    (∀ (bid : List Char) (name_in notes_in : Option (List Char))
      (pre post : List Birthday) (r : Birthday) (rs : List Char)
      (l : List Int),
      r.id = bid → (∀ b ∈ pre, b.id ≠ bid) →
      parse_reminder_days rs = some l →
      handle_edit_birthday bid name_in none (some rs) notes_in
          (pre ++ r :: post) =
        some (apply_edit r ⟨name_in, none, some l, notes_in⟩,
          pre ++ apply_edit r ⟨name_in, none, some l, notes_in⟩ :: post) ∧
      (apply_edit r
        ⟨name_in, none, some l, notes_in⟩).reminder_days_before = l) := by
  refine ⟨?_, rfl, ?_⟩
  · unfold settings_days_error
    rcases hp : parse_csv_ints s with _ | days
    · simp
    · constructor
      · intro hfalse
        simp only [Bool.or_eq_false_iff] at hfalse
        refine ⟨days, rfl, ?_, ?_⟩
        · intro hnil
          rw [hnil] at hfalse
          simp at hfalse
        · intro d hd
          have h2 := hfalse.2
          rw [List.any_eq_false] at h2
          have h3 := h2 d hd
          simp at h3
          omega
      · rintro ⟨l, hl, hne, hall⟩
        rw [Option.some.injEq] at hl
        subst hl
        simp only [Bool.or_eq_false_iff]
        constructor
        · cases days with
          | nil => exact absurd rfl hne
          | cons x t => rfl
        · rw [List.any_eq_false]
          intro d hd
          have h4 := hall d hd
          simp
          omega
  · intro bid name_in notes_in pre post r rs l hr hpre hparse
    constructor
    · unfold handle_edit_birthday
      simp only [opt_field, hparse]
      unfold async_edit
      rw [edit_first_append bid ⟨name_in, none, some l, notes_in⟩ pre hpre
        r post hr]
    · simp [apply_edit]

/-- C8 (witness): editing a one-record store with the empty reminder
string stores the empty list (no fallback to the default set). -/
theorem C8_reminder_validation_location_witness :
    ((⟨['b'], ['B'], render_date 0 1 5, [7], []⟩ : Birthday).id = ['b']) ∧
    (∀ b ∈ ([] : List Birthday), b.id ≠ ['b']) ∧
    parse_reminder_days [] = some [] ∧
    (handle_edit_birthday ['b'] none none (some []) none
        ([] ++ (⟨['b'], ['B'], render_date 0 1 5, [7], []⟩ : Birthday) ::
          []) =
      some (apply_edit ⟨['b'], ['B'], render_date 0 1 5, [7], []⟩
          ⟨none, none, some [], none⟩,
        [] ++ apply_edit ⟨['b'], ['B'], render_date 0 1 5, [7], []⟩
          ⟨none, none, some [], none⟩ :: []) ∧
    (apply_edit ⟨['b'], ['B'], render_date 0 1 5, [7], []⟩
      ⟨none, none, some [], none⟩).reminder_days_before = []) :=
  ⟨by decide, by decide, by decide,
    (C8_reminder_validation_location [] ['x'] ['N']
        ['1', '-', '2'] [] [7, 1, 0] []).2.2
      ['b'] none none [] []
      ⟨['b'], ['B'], render_date 0 1 5, [7], []⟩ [] []
      (by decide) (by decide) (by decide)⟩

/-! ### Claim C9: id uniqueness -/

theorem remove_first_sublist (birthday_id : List Char) :
    ∀ l : List Birthday, List.Sublist (remove_first birthday_id l).2 l := by
  intro l
  induction l with
  | nil => exact List.Sublist.refl []
  | cons b t ih =>
    simp only [remove_first]
    by_cases hb : b.id = birthday_id
    · rw [if_pos hb]
      exact List.Sublist.cons b (List.Sublist.refl t)
    · rw [if_neg hb]
      exact List.Sublist.cons₂ b ih

theorem edit_first_ids (birthday_id : List Char) (a : EditArgs) :
    ∀ l : List Birthday,
      ((edit_first birthday_id a l).2).map (fun b => b.id) =
        l.map (fun b => b.id) := by
  intro l
  induction l with
  | nil => rfl
  | cons b t ih =>
    simp only [edit_first]
    by_cases hb : b.id = birthday_id
    · rw [if_pos hb]
      simp [apply_edit]
    · rw [if_neg hb]
      simp only [List.map_cons, ih]

/-- C9 (counterexample): `async_add` never compares the freshly
generated id (external entropy from `uuid4().hex[:8]`) with the ids
already stored, so a colliding draw produces a store with duplicate
ids. -/
theorem C9_id_collision :
    ¬ ((((async_add ['a'] ['B'] (render_date 0 1 1) none []
        [⟨['a'], ['C'], render_date 0 2 2, [7], []⟩]).2).map
          (fun b => b.id)).Nodup) := by
  decide

/-- C9 (amended): uniqueness is preserved conditionally: `async_add`
keeps pairwise-distinct ids provided the generated id is not already
present (the code performs no such check), and `async_remove` and
`async_edit` unconditionally preserve pairwise-distinct ids. -/
theorem C9_unique_ids (new_id name date_str notes bid : List Char)
    (rd : Option (List Int)) (a : EditArgs) (s : List Birthday)
    (h : (s.map (fun b => b.id)).Nodup) :
    (new_id ∉ s.map (fun b => b.id) →
      (((async_add new_id name date_str rd notes s).2).map
        (fun b => b.id)).Nodup) ∧
    (((async_remove bid s).2.1).map (fun b => b.id)).Nodup ∧
    (((async_edit bid a s).2.1).map (fun b => b.id)).Nodup := by
  refine ⟨?_, ?_, ?_⟩
  · intro hni
    unfold async_add
    simp only [List.map_append, List.map_cons, List.map_nil]
    rw [List.nodup_append]
    refine ⟨h, List.nodup_singleton new_id, ?_⟩
    intro x hx hx1
    rw [List.mem_singleton] at hx1
    subst hx1
    exact hni hx
  · exact List.Nodup.sublist
      (List.Sublist.map (fun b => b.id) (remove_first_sublist bid s)) h
  · show (((edit_first bid a s).2).map (fun b => b.id)).Nodup
    rw [edit_first_ids]
    exact h

/-- C9 (witness): the amended preservation on a two-record store with a
fresh id, an absent removal id and an empty edit. -/
theorem C9_unique_ids_witness :
    (([(⟨['a'], ['A'], render_date 0 1 3, [1], []⟩ : Birthday),
        ⟨['b'], ['B'], render_date 0 1 5, [7], []⟩].map
          (fun b => b.id)).Nodup) ∧
    ((['z'] ∉ [(⟨['a'], ['A'], render_date 0 1 3, [1], []⟩ : Birthday),
        ⟨['b'], ['B'], render_date 0 1 5, [7], []⟩].map (fun b => b.id) →
      (((async_add ['z'] ['N'] (render_date 0 1 7) none []
          [⟨['a'], ['A'], render_date 0 1 3, [1], []⟩,
            ⟨['b'], ['B'], render_date 0 1 5, [7], []⟩]).2).map
        (fun b => b.id)).Nodup) ∧
    (((async_remove ['q']
        [(⟨['a'], ['A'], render_date 0 1 3, [1], []⟩ : Birthday),
          ⟨['b'], ['B'], render_date 0 1 5, [7], []⟩]).2.1).map
      (fun b => b.id)).Nodup ∧
    (((async_edit ['q'] ⟨none, none, none, none⟩
        [(⟨['a'], ['A'], render_date 0 1 3, [1], []⟩ : Birthday),
          ⟨['b'], ['B'], render_date 0 1 5, [7], []⟩]).2.1).map
      (fun b => b.id)).Nodup) :=
  ⟨by decide,
    C9_unique_ids ['z'] ['N'] (render_date 0 1 7) [] ['q'] none
      ⟨none, none, none, none⟩
      [⟨['a'], ['A'], render_date 0 1 3, [1], []⟩,
        ⟨['b'], ['B'], render_date 0 1 5, [7], []⟩]
      (by decide)⟩

/-! ### Claim C10: the two normalizers are mirror images, not equal -/

/-- C10 (counterexample): on input "01-02" both normalizers succeed but
disagree: the service layer reads it as day 1, month 2, the config flow
as month 1, day 2. -/
theorem C10_normalizers_differ :
    normalize_date ['0', '1', '-', '0', '2'] = some (render_date 0 2 1) ∧
    cfg_normalize_date ['0', '1', '-', '0', '2'] =
      some (render_date 0 1 2) ∧
    normalize_date ['0', '1', '-', '0', '2'] ≠
      cfg_normalize_date ['0', '1', '-', '0', '2'] := by
  refine ⟨by decide, by decide, by decide⟩

theorem split_strip_two {u v : List Char}
    (hu : ∀ x ∈ u, x ≠ '-' ∧ is_space_ch x = false)
    (hv : ∀ x ∈ v, x ≠ '-' ∧ is_space_ch x = false) :
    split_on_char '-' (py_strip (u ++ '-' :: v)) = [u, v] := by
  rw [py_strip_eq_self]
  · rw [split_on_char_append _ (fun x hx => (hu x hx).1)]
    rw [split_on_char_no_sep (fun x hx => (hv x hx).1)]
  · intro x hx
    simp only [List.mem_append, List.mem_cons] at hx
    rcases hx with hx | hx | hx
    · exact (hu x hx).2
    · subst hx; decide
    · exact (hv x hx).2

theorem split_strip_three {u v w : List Char}
    (hu : ∀ x ∈ u, x ≠ '-' ∧ is_space_ch x = false)
    (hv : ∀ x ∈ v, x ≠ '-' ∧ is_space_ch x = false)
    (hw : ∀ x ∈ w, x ≠ '-' ∧ is_space_ch x = false) :
    split_on_char '-' (py_strip (u ++ '-' :: (v ++ '-' :: w))) =
      [u, v, w] := by
  rw [py_strip_eq_self]
  · rw [split_on_char_append _ (fun x hx => (hu x hx).1)]
    rw [split_on_char_append _ (fun x hx => (hv x hx).1)]
    rw [split_on_char_no_sep (fun x hx => (hw x hx).1)]
  · intro x hx
    simp only [List.mem_append, List.mem_cons] at hx
    rcases hx with hx | hx | hx | hx | hx
    · exact (hu x hx).2
    · subst hx; decide
    · exact (hv x hx).2
    · subst hx; decide
    · exact (hw x hx).2

/-- C10 (amended): the two implementations are not equivalent; they are
mirror images.  For dash-free, space-free segments, the config flow's
normalization of "a-b" (read month-day) equals the service layer's
normalization of "b-a" (read day-month), and likewise "a-b-c" (read
year-month-day) matches "c-b-a" (read day-month-year). -/
theorem C10_mirror_normalizers (a b c : List Char)
    (ha : ∀ x ∈ a, x ≠ '-' ∧ is_space_ch x = false)
    (hb : ∀ x ∈ b, x ≠ '-' ∧ is_space_ch x = false)
    (hc : ∀ x ∈ c, x ≠ '-' ∧ is_space_ch x = false) :
    cfg_normalize_date (a ++ '-' :: b) =
      normalize_date (b ++ '-' :: a) ∧
    cfg_normalize_date (a ++ '-' :: (b ++ '-' :: c)) =
      normalize_date (c ++ '-' :: (b ++ '-' :: a)) := by
  constructor
  · unfold cfg_normalize_date normalize_date
    rw [split_strip_two ha hb, split_strip_two hb ha]
    rcases hpa : parse_py_nat a with _ | va <;>
      rcases hpb : parse_py_nat b with _ | vb <;> simp [hpa, hpb]
  · unfold cfg_normalize_date normalize_date
    rw [split_strip_three ha hb hc, split_strip_three hc hb ha]
    rcases hpa : parse_py_nat a with _ | va <;>
      rcases hpb : parse_py_nat b with _ | vb <;>
      rcases hpc : parse_py_nat c with _ | vc <;> simp [hpa, hpb, hpc]

/-- C10 (witness): the mirror identity at segments "01", "02", "1990". -/
theorem C10_mirror_normalizers_witness :
    (∀ x ∈ ['0', '1'], x ≠ '-' ∧ is_space_ch x = false) ∧
    (cfg_normalize_date (['0', '1'] ++ '-' :: ['0', '2']) =
      normalize_date (['0', '2'] ++ '-' :: ['0', '1']) ∧
    cfg_normalize_date
        (['0', '1'] ++ '-' :: (['0', '2'] ++ '-' :: ['1', '9', '9', '0'])) =
      normalize_date
        (['1', '9', '9', '0'] ++ '-' ::
          (['0', '2'] ++ '-' :: ['0', '1']))) :=
  ⟨by decide,
    C10_mirror_normalizers ['0', '1'] ['0', '2'] ['1', '9', '9', '0']
      (by decide) (by decide) (by decide)⟩

end BirthdayTracker
